import Mathlib

/-!
Shallow embedding of the applovin_report repository
(src/applovin_report/services/revenue_reporting_api.py and
src/applovin_report/user_ad_revenue_reporting_api.py).

A report row is modelled as an association list from column name to the
string value the service returned for it.  The HTTP layer is modelled as a
function from the attempt index to the outcome of that attempt: either a
response carrying a status code and a decoded JSON results array, or a
network-level failure (a requests exception: connection error / timeout,
no HTTP response at all).
-/

set_option autoImplicit false

abbrev Row := List (String × String)

/-- Outcome of one call to requests.get against the maxReport endpoint:
either a response with a status code and the decoded body's results array,
or a raised connection/timeout exception (no response). -/
inductive HttpOutcome where
  | ok (status : Nat) (results : List Row)
  | netErr
deriving DecidableEq

namespace RevenueReport

/-- Errors surfaced by RevenueReport fetches: exhausted carries the
status code of the last observed response (the raise Exception after the
retry loop), network is a propagated requests exception. -/
inductive FetchError where
  | exhausted (status : Nat)
  | network
deriving DecidableEq

/-- The retry loop shared (textually duplicated) by get_report (lines
69-77) and get_report_batch (lines 129-134): up to the given fuel many
attempts, stopping early at the first status-200 response; any raised
requests exception propagates at once (the loop body does not catch it).
Returns the last observed outcome together with the number of requests
actually issued.  Called with fuel = max_retries + 1, mirroring
range(max_retries + 1). -/
def retryLoop (server : Nat → HttpOutcome) : Nat → Nat → HttpOutcome × Nat
  | _, 0 => (HttpOutcome.netErr, 0)
  | i, n + 1 =>
    match server i with
    | HttpOutcome.netErr => (HttpOutcome.netErr, 1)
    | HttpOutcome.ok s rs =>
      if s = 200 then (HttpOutcome.ok s rs, 1)
      else
        match n with
        | 0 => (HttpOutcome.ok s rs, 1)
        | m + 1 =>
          let p := retryLoop server (i + 1) (m + 1)
          (p.1, p.2 + 1)

/-- RevenueReport.get_report, retry part (lines 69-79): run the retry
loop with max_retries + 1 attempts; on a 200 return the results array as
the table, otherwise raise Exception with the last response's status code;
a requests exception propagates unwrapped. -/
def get_report (server : Nat → HttpOutcome) (maxRetries : Nat) :
    Except FetchError (List Row) :=
  match (retryLoop server 0 (maxRetries + 1)).1 with
  | HttpOutcome.ok s rs =>
    if s = 200 then Except.ok rs else Except.error (FetchError.exhausted s)
  | HttpOutcome.netErr => Except.error FetchError.network

/-- Number of HTTP requests get_report issues for the given server and
max_retries (observation on the same retry loop). -/
def get_report_attempts (server : Nat → HttpOutcome) (maxRetries : Nat) : Nat :=
  (retryLoop server 0 (maxRetries + 1)).2

/-- Errors surfaced by get_report_batch: the raise at lines 137-141
carries the last status, the current offset and the batch size; a requests
exception propagates unwrapped. -/
inductive BatchError where
  | exhausted (status offset batchSize : Nat)
  | network
deriving DecidableEq

/-- RevenueReport.get_report_batch (lines 114-146).  The server is a
function of (offset, limit, attempt index within the page).  The while
loop is given explicit fuel (none = the loop did not finish within the
fuel, a model artifact only); the result is the list of yielded pages,
each tagged with the offset it was requested at, together with the error
the generator raised after those yields, if any.  Per page: retry loop
with max_retries + 1 attempts, raise if the final status is not 200,
otherwise yield the results array and continue exactly when its length
equals batch_size (has_next_batch), with offset += batch_size. -/
def get_report_batch (server : Nat → Nat → Nat → HttpOutcome)
    (batchSize maxRetries : Nat) :
    Nat → Nat → Option (List (Nat × List Row) × Option BatchError)
  | 0, _ => none
  | fuel + 1, offset =>
    match (retryLoop (server offset batchSize) 0 (maxRetries + 1)).1 with
    | HttpOutcome.netErr => some ([], some BatchError.network)
    | HttpOutcome.ok s rs =>
      if s = 200 then
        if rs.length = batchSize then
          match get_report_batch server batchSize maxRetries fuel (offset + batchSize) with
          | none => none
          | some (pages, e) => some ((offset, rs) :: pages, e)
        else some ([(offset, rs)], none)
      else some ([], some (BatchError.exhausted s offset batchSize))

/-- A fault-free server holding a fixed dataset: a request at a given
offset and limit answers 200 with the slice of the dataset starting at
offset, of at most limit rows (the paginated-endpoint contract the spec's
pagination scenarios assume). -/
def perfectServer (dataset : List Row) : Nat → Nat → Nat → HttpOutcome :=
  fun offset limit _ => HttpOutcome.ok 200 ((dataset.drop offset).take limit)

/-- The same fault-free server seen by the single-shot fetch, which sends
a limit but no offset: every attempt answers 200 with the first limit rows
of the dataset. -/
def singleServer (dataset : List Row) (limit : Nat) : Nat → HttpOutcome :=
  fun _ => HttpOutcome.ok 200 (dataset.take limit)

/-- Reference chunking of the remaining dataset, mirroring the batch
loop's control flow on a fault-free server: take a page of at most b rows;
if it is full, emit it and continue b rows further, else it is the final
page. -/
def chunks (b : Nat) : Nat → Nat → List Row → List (Nat × List Row)
  | 0, _, _ => []
  | fuel + 1, offset, rest =>
    if (rest.take b).length = b then
      (offset, rest.take b) :: chunks b fuel (offset + b) (rest.drop b)
    else [(offset, rest.take b)]

/-- Python truthiness test used at line 55 and line 110: an absent
(None) or empty date string is falsy. -/
def pyFalsy : Option String → Bool
  | none => true
  | some s => s = ""

/-- Date defaulting shared by get_report (lines 55-57) and
get_report_batch (lines 110-112): if either date is falsy, BOTH dates are
replaced by the computed defaults (strftime of now - 2 days and
now - 1 day, passed in here as defaultStart and defaultEnd); only when
both are non-falsy are the supplied values kept. -/
def resolveDates (defaultStart defaultEnd : String)
    (start_date end_date : Option String) : String × String :=
  if pyFalsy start_date || pyFalsy end_date then (defaultStart, defaultEnd)
  else (start_date.getD "", end_date.getD "")

end RevenueReport

/-- A parameter value in the request dictionary: string, integer or
boolean, as the Python dict holds. -/
inductive PValue where
  | s (v : String)
  | n (v : Nat)
  | b (v : Bool)
deriving DecidableEq

abbrev ParamDict := List (String × PValue)

/-- CPython dict insertion on a dict with unique keys: an existing key is
overwritten in place, a new key is appended at the end. -/
def dictInsert : ParamDict → String → PValue → ParamDict
  | [], k, v => [(k, v)]
  | (k0, v0) :: rest, k, v =>
    if k0 = k then (k, v) :: rest
    else (k0, v0) :: dictInsert rest k v

/-- Merging of a kwargs mapping into a dict, entry by entry in order:
the semantics of a trailing double-star unpacking in a dict display. -/
def dictInsertMany (d : ParamDict) : List (String × PValue) → ParamDict
  | [] => d
  | (k, v) :: rest => dictInsertMany (dictInsert d k v) rest

/-- Dict lookup. -/
def dictGet : ParamDict → String → Option PValue
  | [], _ => none
  | (k0, v0) :: rest, k => if k0 = k then some v0 else dictGet rest k

namespace RevenueReport

/-- The params dict built by get_report (lines 59-67): the base entries
api_key, start, end, comma-joined columns, format=json and limit, then
the kwargs unpacked last. -/
def buildParams (apiKey startD endD : String) (columns : List String)
    (limit : Nat) (kwargs : List (String × PValue)) : ParamDict :=
  dictInsertMany
    [("api_key", PValue.s apiKey), ("start", PValue.s startD),
      ("end", PValue.s endD), ("columns", PValue.s (String.intercalate "," columns)),
      ("format", PValue.s "json"), ("limit", PValue.n limit)]
    kwargs

/-- The params dict built by get_report_batch (lines 117-126): like
buildParams with the page's offset and limit = batch_size, kwargs
unpacked last. -/
def buildBatchParams (apiKey startD endD : String) (columns : List String)
    (offset batchSize : Nat) (kwargs : List (String × PValue)) : ParamDict :=
  dictInsertMany
    [("api_key", PValue.s apiKey), ("start", PValue.s startD),
      ("end", PValue.s endD), ("columns", PValue.s (String.intercalate "," columns)),
      ("format", PValue.s "json"), ("offset", PValue.n offset),
      ("limit", PValue.n batchSize)]
    kwargs

end RevenueReport

/-! The user ad revenue variant.  Its session mounts an HTTPAdapter with
urllib3 Retry(total = max_retries, status_forcelist = status_retries),
so retry happens below get_report, inside the session. -/

/-- Outcome of one low-level request attempt by the session for the
userAdRevenueReport endpoint: a response with a status code and, when the
JSON body has the ad_revenue_report_url field, the delimited-text content
that URL serves (as a character list); or a connection/timeout failure. -/
inductive UserHttp where
  | ok (status : Nat) (reportUrlContent : Option (List Char))
  | netErr
deriving DecidableEq

namespace UserAdRevenueReport

/-- STATUS_RETRIES at line 11: the status codes the session is told to
force a retry on. -/
def STATUS_RETRIES : List Nat := [500, 502, 503, 504]

/-- What session.get ultimately produces: either the final response, or
the MaxRetryError urllib3 raises when the retry budget is exhausted. -/
inductive SessionResult where
  | resp (status : Nat) (reportUrlContent : Option (List Char))
  | maxRetryError
deriving DecidableEq

/-- Model of session.get under urllib3 Retry (mounted at lines 40-41):
a connection/timeout failure and a response whose status is in the
forcelist both consume one unit of the attempt budget and retry; any
other response is returned at once; an exhausted budget raises
MaxRetryError.  Called with fuel = max_retries + 1 (the initial request
plus max_retries retries).  Returns the result and the number of
requests issued. -/
def sessionGet (forcelist : List Nat) (server : Nat → UserHttp) :
    Nat → Nat → SessionResult × Nat
  | _, 0 => (SessionResult.maxRetryError, 0)
  | i, n + 1 =>
    match server i with
    | UserHttp.netErr =>
      let p := sessionGet forcelist server (i + 1) n
      (p.1, p.2 + 1)
    | UserHttp.ok s body =>
      if s ∈ forcelist then
        let p := sessionGet forcelist server (i + 1) n
        (p.1, p.2 + 1)
      else (SessionResult.resp s body, 1)

/-- Splitting a character list at every occurrence of the separator; the
result is always non-empty (splitting the empty text gives one empty
field). -/
def splitOnChar (sep : Char) : List Char → List (List Char)
  | [] => [[]]
  | c :: rest =>
    match splitOnChar sep rest with
    | [] => [[c]]
    | g :: gs => if c = sep then [] :: g :: gs else (c :: g) :: gs

/-- Joining fields with a separator character (inverse of splitOnChar on
well-formed input). -/
def intercalateChar (sep : Char) : List (List Char) → List Char
  | [] => []
  | [g] => g
  | g :: g2 :: gs => g ++ sep :: intercalateChar sep (g2 :: gs)

/-- Model of pandas.read_csv with dtype equal to object, as called at
line 92 on the content behind ad_revenue_report_url: the text is split
into lines and each line into comma-separated cells, every cell kept as
the raw character sequence with no numeric coercion. -/
def read_csv_object (text : List Char) : List (List (List Char)) :=
  (splitOnChar (Char.ofNat 10) text).map (splitOnChar (Char.ofNat 44))

/-- Rendering a table back to delimited text (used to state that parsing
preserves cells exactly). -/
def renderCsv (rows : List (List (List Char))) : List Char :=
  intercalateChar (Char.ofNat 10) (rows.map (intercalateChar (Char.ofNat 44)))

/-- Errors UserAdRevenueReport.get_report can raise: the session's
MaxRetryError, or the KeyError from response.json() lacking the
ad_revenue_report_url field on a non-404 response. -/
inductive UserError where
  | maxRetry
  | keyError
deriving DecidableEq

/-- UserAdRevenueReport.get_report, fetch part (lines 87-94): issue
session.get; a 404 response returns an empty table (pd.DataFrame());
otherwise read the CSV behind the body's ad_revenue_report_url with
dtype object. -/
def get_report (server : Nat → UserHttp) (maxRetries : Nat) :
    Except UserError (List (List (List Char))) :=
  match (sessionGet STATUS_RETRIES server 0 (maxRetries + 1)).1 with
  | SessionResult.maxRetryError => Except.error UserError.maxRetry
  | SessionResult.resp status body =>
    if status = 404 then Except.ok []
    else
      match body with
      | some csv => Except.ok (read_csv_object csv)
      | none => Except.error UserError.keyError

/-- The params dict built by UserAdRevenueReport.get_report (lines
71-84): base entries api_key, date, aggregated, platform, kwargs unpacked
last, and then, after the dict display, the application or store_id entry
assigned depending on the platform. -/
def buildParams (apiKey date : String) (aggregated : Bool)
    (platform application store_id : String)
    (kwargs : List (String × PValue)) : ParamDict :=
  let base :=
    dictInsertMany
      [("api_key", PValue.s apiKey), ("date", PValue.s date),
        ("aggregated", PValue.b aggregated), ("platform", PValue.s platform)]
      kwargs
  if platform = "android" then dictInsert base "application" (PValue.s application)
  else if platform = "ios" then dictInsert base "store_id" (PValue.s store_id)
  else base

end UserAdRevenueReport

/-! ## Lemmas about the RevenueReport retry loop -/

/-- A first-attempt 200 stops the retry loop at once with one request. -/
theorem retryLoop_ok200 (rs : List Row) (i n : Nat) :
    RevenueReport.retryLoop (fun _ => HttpOutcome.ok 200 rs) i (n + 1) =
      (HttpOutcome.ok 200 rs, 1) := by
  simp [RevenueReport.retryLoop]

/-- A connection/timeout failure stops the retry loop at once: the
exception propagates after a single request. -/
theorem retryLoop_netErr (i n : Nat) :
    RevenueReport.retryLoop (fun _ => HttpOutcome.netErr) i (n + 1) =
      (HttpOutcome.netErr, 1) := by
  simp [RevenueReport.retryLoop]

/-- A server answering every request with the same non-200 status makes
the retry loop run through its whole budget: n + 1 requests, final
outcome the last response. -/
theorem retryLoop_const_fail (s : Nat) (rs : List Row) (h : ¬s = 200) :
    ∀ n i, RevenueReport.retryLoop (fun _ => HttpOutcome.ok s rs) i (n + 1) =
      (HttpOutcome.ok s rs, n + 1) := by
  intro n
  induction n with
  | zero => intro i; simp [RevenueReport.retryLoop, h]
  | succ m ih => intro i; simp [RevenueReport.retryLoop, h, ih (i + 1)]

/-! ## Lemmas about the paginated fetch on a fault-free server -/

/-- On a fault-free server holding a fixed dataset, the batch loop with
enough fuel terminates cleanly and yields exactly the reference chunking
of the remaining dataset. -/
theorem batch_perfect_eq_chunks (ds : List Row) (b mr : Nat) :
    ∀ fuel offset, (ds.drop offset).length < fuel → 1 ≤ b →
      RevenueReport.get_report_batch (RevenueReport.perfectServer ds) b mr fuel offset =
        some (RevenueReport.chunks b fuel offset (ds.drop offset), none) := by
  intro fuel
  induction fuel with
  | zero => intro offset h hb; omega
  | succ fuel ih =>
    intro offset h hb
    have hrl : RevenueReport.retryLoop (RevenueReport.perfectServer ds offset b) 0 (mr + 1) =
        (HttpOutcome.ok 200 ((ds.drop offset).take b), 1) :=
      retryLoop_ok200 ((ds.drop offset).take b) 0 mr
    by_cases hfull : ((ds.drop offset).take b).length = b
    · have hble : b ≤ (ds.drop offset).length := by
        rw [List.length_take] at hfull; omega
      have hdd : (ds.drop offset).drop b = ds.drop (offset + b) := by
        rw [List.drop_drop]
      have hrec : (ds.drop (offset + b)).length < fuel := by
        rw [← hdd, List.length_drop]; omega
      simp only [RevenueReport.get_report_batch, hrl, if_pos hfull]
      rw [ih (offset + b) hrec hb]
      simp only [RevenueReport.chunks, if_pos hfull, hdd]
      simp
    · simp only [RevenueReport.get_report_batch, hrl, if_neg hfull]
      simp only [RevenueReport.chunks, if_neg hfull]
      simp

/-- Concatenating the pages of the reference chunking restores the
remaining dataset: chunking neither loses nor duplicates rows. -/
theorem chunks_flatten (b : Nat) :
    ∀ fuel offset rest, rest.length < fuel → 1 ≤ b →
      ((RevenueReport.chunks b fuel offset rest).map Prod.snd).flatten = rest := by
  intro fuel
  induction fuel with
  | zero => intro offset rest h hb; omega
  | succ fuel ih =>
    intro offset rest h hb
    by_cases hfull : (rest.take b).length = b
    · have hble : b ≤ rest.length := by rw [List.length_take] at hfull; omega
      have hrec : (rest.drop b).length < fuel := by rw [List.length_drop]; omega
      simp only [RevenueReport.chunks, if_pos hfull, List.map_cons, List.flatten_cons,
        ih (offset + b) (rest.drop b) hrec hb]
      exact List.take_append_drop b rest
    · have hlt : rest.length < b := by rw [List.length_take] at hfull; omega
      simp only [RevenueReport.chunks, if_neg hfull, List.map_cons, List.map_nil,
        List.flatten_cons, List.flatten_nil, List.append_nil]
      exact List.take_of_length_le (Nat.le_of_lt hlt)

/-- Shape of the reference chunking: it is a non-empty list in which
every page before the last holds exactly b rows, the last page holds
strictly fewer than b rows, and when the dataset size is an exact
multiple of b the last page is empty (the accepted extra fetch). -/
theorem chunks_shape (b : Nat) (hb : 1 ≤ b) :
    ∀ fuel offset rest, rest.length < fuel →
      ∃ front lastPage,
        RevenueReport.chunks b fuel offset rest = front ++ [lastPage] ∧
        (∀ p ∈ front, (Prod.snd p).length = b) ∧
        (Prod.snd lastPage).length < b ∧
        (rest.length % b = 0 → Prod.snd lastPage = []) := by
  intro fuel
  induction fuel with
  | zero => intro offset rest h; omega
  | succ fuel ih =>
    intro offset rest h
    by_cases hfull : (rest.take b).length = b
    · have hble : b ≤ rest.length := by rw [List.length_take] at hfull; omega
      have hrec : (rest.drop b).length < fuel := by rw [List.length_drop]; omega
      obtain ⟨front, lastPage, heq, hfront, hlast, hmod⟩ := ih (offset + b) (rest.drop b) hrec
      refine ⟨(offset, rest.take b) :: front, lastPage, ?_, ?_, hlast, ?_⟩
      · simp only [RevenueReport.chunks, if_pos hfull, heq, List.cons_append]
      · intro p hp
        rcases List.mem_cons.mp hp with hep | hmem
        · rw [hep]; exact hfull
        · exact hfront p hmem
      · intro hm
        apply hmod
        rw [List.length_drop]
        have hsum : rest.length - b + b = rest.length := by omega
        have := Nat.add_mod_right (rest.length - b) b
        rw [hsum] at this
        omega
    · have hlt : rest.length < b := by rw [List.length_take] at hfull; omega
      refine ⟨[], (offset, rest.take b), ?_, ?_, ?_, ?_⟩
      · simp only [RevenueReport.chunks, if_neg hfull, List.nil_append]
      · intro p hp; cases hp
      · rw [List.length_take]; omega
      · intro hm
        have hz : rest.length = 0 := by
          have := Nat.mod_eq_of_lt hlt
          omega
        have hnil : rest = [] := List.length_eq_zero.mp hz
        simp [hnil]

/-! ## Lemmas about the user ad revenue session (urllib3 Retry model) -/

/-- A response whose status is outside the forcelist is returned by the
session at once, after a single request. -/
theorem sessionGet_stop (fl : List Nat) (s : Nat) (body : Option (List Char))
    (hs : s ∉ fl) (i n : Nat) :
    UserAdRevenueReport.sessionGet fl (fun _ => UserHttp.ok s body) i (n + 1) =
      (UserAdRevenueReport.SessionResult.resp s body, 1) := by
  simp [UserAdRevenueReport.sessionGet, hs]

/-- A server answering every request with a forcelisted status exhausts
the session's whole attempt budget and raises MaxRetryError. -/
theorem sessionGet_const_retryable (fl : List Nat) (s : Nat)
    (body : Option (List Char)) (hs : s ∈ fl) :
    ∀ n i, UserAdRevenueReport.sessionGet fl (fun _ => UserHttp.ok s body) i n =
      (UserAdRevenueReport.SessionResult.maxRetryError, n) := by
  intro n
  induction n with
  | zero => intro i; rfl
  | succ m ih => intro i; simp [UserAdRevenueReport.sessionGet, hs, ih (i + 1)]

/-- A server failing every request at the connection level exhausts the
session's whole attempt budget and raises MaxRetryError. -/
theorem sessionGet_const_netErr (fl : List Nat) :
    ∀ n i, UserAdRevenueReport.sessionGet fl (fun _ => UserHttp.netErr) i n =
      (UserAdRevenueReport.SessionResult.maxRetryError, n) := by
  intro n
  induction n with
  | zero => intro i; rfl
  | succ m ih => intro i; simp [UserAdRevenueReport.sessionGet, ih (i + 1)]

/-- One step of the session loop on a connection-level failure: the
budget shrinks by one and the request counter grows by one. -/
theorem sessionGet_netErr_step (fl : List Nat) (server : Nat → UserHttp)
    (i n : Nat) (hi : server i = UserHttp.netErr) :
    UserAdRevenueReport.sessionGet fl server i (n + 1) =
      ((UserAdRevenueReport.sessionGet fl server (i + 1) n).1,
        (UserAdRevenueReport.sessionGet fl server (i + 1) n).2 + 1) := by
  simp [UserAdRevenueReport.sessionGet, hi]

/-- If the first k attempts fail at the connection level and attempt k
succeeds with a status outside the forcelist, the session recovers: it
returns that response after k + 1 requests, provided k is within the
retry budget. -/
theorem sessionGet_netErr_prefix (fl : List Nat) (server : Nat → UserHttp)
    (s : Nat) (body : Option (List Char)) (hs : s ∉ fl) :
    ∀ k n i, k ≤ n → (∀ j, j < k → server (i + j) = UserHttp.netErr) →
      server (i + k) = UserHttp.ok s body →
      UserAdRevenueReport.sessionGet fl server i (n + 1) =
        (UserAdRevenueReport.SessionResult.resp s body, k + 1) := by
  intro k
  induction k with
  | zero =>
    intro n i _ _ hok
    rw [Nat.add_zero] at hok
    simp [UserAdRevenueReport.sessionGet, hok, hs]
  | succ k ih =>
    intro n i hkn hfail hok
    have hi : server i = UserHttp.netErr := by
      have := hfail 0 (Nat.succ_pos k)
      rwa [Nat.add_zero] at this
    obtain ⟨m, rfl⟩ : ∃ m, n = m + 1 := by
      cases n with
      | zero => omega
      | succ m => exact ⟨m, rfl⟩
    have hrec := ih m (i + 1) (by omega)
      (fun j hj => by
        have := hfail (j + 1) (by omega)
        rwa [show i + (j + 1) = i + 1 + j by omega] at this)
      (by rwa [show i + 1 + k = i + (k + 1) by omega])
    rw [sessionGet_netErr_step fl server i (m + 1) hi, hrec]

/-! ## Lemmas about the dict model -/

theorem dictGet_insert_self : ∀ (d : ParamDict) (k : String) (v : PValue),
    dictGet (dictInsert d k v) k = some v := by
  intro d
  induction d with
  | nil => intro k v; simp [dictInsert, dictGet]
  | cons p rest ih =>
    intro k v
    obtain ⟨k0, v0⟩ := p
    by_cases h : k0 = k
    · simp [dictInsert, dictGet, h]
    · simp [dictInsert, dictGet, h, ih]

theorem dictGet_insert_ne : ∀ (d : ParamDict) (q k : String) (v : PValue),
    ¬q = k → dictGet (dictInsert d q v) k = dictGet d k := by
  intro d
  induction d with
  | nil => intro q k v h; simp [dictInsert, dictGet, h]
  | cons p rest ih =>
    intro q k v h
    obtain ⟨k0, v0⟩ := p
    by_cases h0 : k0 = q
    · subst h0
      simp [dictInsert, dictGet, h]
    · by_cases hk : k0 = k
      · have hkq : ¬k = q := fun hkq => h hkq.symm
        simp [dictInsert, dictGet, h0, hk, hkq]
      · simp [dictInsert, dictGet, h0, hk, ih q k v h]

theorem dictGet_insertMany_not_mem :
    ∀ (kvs : List (String × PValue)) (d : ParamDict) (k : String),
      k ∉ kvs.map Prod.fst → dictGet (dictInsertMany d kvs) k = dictGet d k := by
  intro kvs
  induction kvs with
  | nil => intro d k _; rfl
  | cons p rest ih =>
    intro d k h
    obtain ⟨q, v⟩ := p
    simp only [List.map_cons, List.mem_cons] at h
    push_neg at h
    rw [dictInsertMany, ih (dictInsert d q v) k h.2]
    exact dictGet_insert_ne d q k v (fun hqk => h.1 hqk.symm)

/-- Every kwargs entry wins: merging kwargs (whose keys are unique, as
Python keyword arguments are) last into the dict makes lookup of any
kwargs key return the kwargs value, whatever the base dict held. -/
theorem dictGet_insertMany_mem :
    ∀ (kvs : List (String × PValue)) (d : ParamDict) (k : String) (v : PValue),
      (kvs.map Prod.fst).Nodup → (k, v) ∈ kvs →
      dictGet (dictInsertMany d kvs) k = some v := by
  intro kvs
  induction kvs with
  | nil => intro d k v _ hmem; cases hmem
  | cons p rest ih =>
    intro d k v hnd hmem
    obtain ⟨q, w⟩ := p
    simp only [List.map_cons, List.nodup_cons] at hnd
    rcases List.mem_cons.mp hmem with heq | hmem2
    · injection heq with hk hv
      subst hk
      subst hv
      rw [dictInsertMany, dictGet_insertMany_not_mem rest (dictInsert d k v) k hnd.1]
      exact dictGet_insert_self d k v
    · exact ih (dictInsert d q w) k v hnd.2 hmem2

/-! ## Lemmas about the CSV model -/

theorem splitOnChar_ne_nil (sep : Char) :
    ∀ l : List Char, UserAdRevenueReport.splitOnChar sep l ≠ [] := by
  intro l
  induction l with
  | nil => simp [UserAdRevenueReport.splitOnChar]
  | cons c rest ih =>
    cases h : UserAdRevenueReport.splitOnChar sep rest with
    | nil => exact absurd h ih
    | cons g gs =>
      by_cases hc : c = sep
      · simp [UserAdRevenueReport.splitOnChar, h, hc]
      · simp [UserAdRevenueReport.splitOnChar, h, hc]

/-- Splitting a text that does not contain the separator gives back the
whole text as the single field. -/
theorem splitOnChar_not_mem (sep : Char) :
    ∀ l : List Char, sep ∉ l → UserAdRevenueReport.splitOnChar sep l = [l] := by
  intro l
  induction l with
  | nil => intro _; rfl
  | cons c rest ih =>
    intro h
    simp only [List.mem_cons] at h
    push_neg at h
    have hc : ¬c = sep := fun hc => h.1 hc.symm
    simp [UserAdRevenueReport.splitOnChar, ih h.2, hc]

/-- Splitting a text of the form field ++ separator ++ tail, where the
field is separator-free, peels off exactly that field. -/
theorem splitOnChar_append (sep : Char) :
    ∀ (g t : List Char), sep ∉ g →
      UserAdRevenueReport.splitOnChar sep (g ++ sep :: t) =
        g :: UserAdRevenueReport.splitOnChar sep t := by
  intro g
  induction g with
  | nil =>
    intro t _
    cases h : UserAdRevenueReport.splitOnChar sep t with
    | nil => exact absurd h (splitOnChar_ne_nil sep t)
    | cons q qs => simp [UserAdRevenueReport.splitOnChar, h]
  | cons c g ih =>
    intro t hmem
    simp only [List.mem_cons] at hmem
    push_neg at hmem
    have hc : ¬c = sep := fun hc => hmem.1 hc.symm
    simp [UserAdRevenueReport.splitOnChar, ih t hmem.2, hc]

/-- A character distinct from the separator and absent from every field
is absent from the joined text. -/
theorem intercalateChar_not_mem (sep c : Char) (hcs : c ≠ sep) :
    ∀ parts : List (List Char), (∀ p ∈ parts, c ∉ p) →
      c ∉ UserAdRevenueReport.intercalateChar sep parts := by
  intro parts
  induction parts with
  | nil => intro _; simp [UserAdRevenueReport.intercalateChar]
  | cons g tail ih =>
    intro h
    cases tail with
    | nil =>
      simpa [UserAdRevenueReport.intercalateChar] using h g (List.mem_cons_self g [])
    | cons g2 gs =>
      have hg : c ∉ g := h g (List.mem_cons_self g (g2 :: gs))
      have htail : c ∉ UserAdRevenueReport.intercalateChar sep (g2 :: gs) :=
        ih fun p hp => h p (List.mem_cons_of_mem g hp)
      simp only [UserAdRevenueReport.intercalateChar, List.mem_append, List.mem_cons]
      push_neg
      exact ⟨hg, hcs, htail⟩

/-- Splitting is a left inverse of joining on non-empty lists of
separator-free fields. -/
theorem splitOnChar_intercalateChar (sep : Char) :
    ∀ parts : List (List Char), parts ≠ [] → (∀ p ∈ parts, sep ∉ p) →
      UserAdRevenueReport.splitOnChar sep (UserAdRevenueReport.intercalateChar sep parts) =
        parts := by
  intro parts
  induction parts with
  | nil => intro h _; exact absurd rfl h
  | cons g tail ih =>
    intro _ h
    cases tail with
    | nil =>
      simp only [UserAdRevenueReport.intercalateChar]
      exact splitOnChar_not_mem sep g (h g (List.mem_cons_self g []))
    | cons g2 gs =>
      have hg : sep ∉ g := h g (List.mem_cons_self g (g2 :: gs))
      simp only [UserAdRevenueReport.intercalateChar]
      rw [splitOnChar_append sep g _ hg,
        ih (by simp) fun p hp => h p (List.mem_cons_of_mem g hp)]

/-- Parsing the rendered delimited text of a well-formed table (no cell
holding a comma or a newline, no empty row) restores the table exactly:
every cell comes back as the same character string, with no coercion. -/
theorem read_csv_object_renderCsv (rows : List (List (List Char)))
    (hne : rows ≠ [])
    (hrows : ∀ r ∈ rows, r ≠ [] ∧
      ∀ cell ∈ r, Char.ofNat 44 ∉ cell ∧ Char.ofNat 10 ∉ cell) :
    UserAdRevenueReport.read_csv_object (UserAdRevenueReport.renderCsv rows) = rows := by
  unfold UserAdRevenueReport.read_csv_object UserAdRevenueReport.renderCsv
  rw [splitOnChar_intercalateChar (Char.ofNat 10) (rows.map _) (by simp [hne]) ?_]
  · rw [List.map_map]
    have : ∀ r ∈ rows,
        (UserAdRevenueReport.splitOnChar (Char.ofNat 44) ∘
          UserAdRevenueReport.intercalateChar (Char.ofNat 44)) r = id r := by
      intro r hr
      exact splitOnChar_intercalateChar (Char.ofNat 44) r (hrows r hr).1
        fun cell hc => ((hrows r hr).2 cell hc).1
    rw [List.map_congr_left this, List.map_id]
  · intro line hline
    rcases List.mem_map.mp hline with ⟨r, hr, rfl⟩
    exact intercalateChar_not_mem (Char.ofNat 44) (Char.ofNat 10) (by decide) r
      fun cell hc => ((hrows r hr).2 cell hc).2

/-- A five-row sample dataset used by concrete scenarios. -/
def ds5 : List Row :=
  [[("i", "1")], [("i", "2")], [("i", "3")], [("i", "4")], [("i", "5")]]

/-! ## Claim theorems -/

/-- C1: with max_retries = N and a server answering every request with a
retryable 503, the single-shot fetch issues exactly N + 1 requests and
then fails carrying status 503, and the (first) page of the batch fetch
does the same, its retry loop also issuing exactly N + 1 requests before
the batch raises with status 503 at offset 0. -/
theorem claim_C1_exhausts_full_retry_budget (N b fuel : Nat) :
    RevenueReport.get_report (fun _ => HttpOutcome.ok 503 []) N =
      Except.error (RevenueReport.FetchError.exhausted 503) ∧
    RevenueReport.get_report_attempts (fun _ => HttpOutcome.ok 503 []) N = N + 1 ∧
    RevenueReport.get_report_batch (fun _ _ _ => HttpOutcome.ok 503 []) b N (fuel + 1) 0 =
      some ([], some (RevenueReport.BatchError.exhausted 503 0 b)) ∧
    (RevenueReport.retryLoop (fun _ => HttpOutcome.ok 503 []) 0 (N + 1)).2 = N + 1 := by
  have h53 : ¬(503 = 200) := by decide
  have hrl := retryLoop_const_fail 503 [] h53 N 0
  refine ⟨?_, ?_, ?_, ?_⟩
  · simp [RevenueReport.get_report, hrl]
  · simp [RevenueReport.get_report_attempts, hrl]
  · simp [RevenueReport.get_report_batch, hrl]
  · simp [hrl]

/-- C2: on a fault-free server over any dataset, with any positive page
size b, the paginated fetch terminates cleanly; every yielded page before
the last holds exactly b rows (a full page always triggers a further page
request), the last yielded page holds strictly fewer than b rows (a short
page ends the sequence right after being yielded), and when the dataset
size is an exact multiple of b the extra final fetch returns an empty
page. -/
theorem claim_C2_pagination_terminates_on_short_page (ds : List Row) (b mr : Nat)
    (hb : 1 ≤ b) :
    ∃ front lastPage,
      RevenueReport.get_report_batch (RevenueReport.perfectServer ds) b mr
          (ds.length + 1) 0 =
        some (front ++ [lastPage], none) ∧
      (∀ p ∈ front, (Prod.snd p).length = b) ∧
      (Prod.snd lastPage).length < b ∧
      (ds.length % b = 0 → Prod.snd lastPage = []) := by
  have hlen : (ds.drop 0).length < ds.length + 1 := by simp
  obtain ⟨front, lastPage, heq, hf, hl, hm⟩ :=
    chunks_shape b hb (ds.length + 1) 0 (ds.drop 0) hlen
  refine ⟨front, lastPage, ?_, hf, hl, ?_⟩
  · rw [batch_perfect_eq_chunks ds b mr (ds.length + 1) 0 hlen hb, heq]
  · intro h
    apply hm
    simpa using h

/-- C2 witness: the property instantiated on the five-row dataset with
page size 2. -/
theorem claim_C2_pagination_terminates_on_short_page_witness :
    ∃ front lastPage,
      RevenueReport.get_report_batch (RevenueReport.perfectServer ds5) 2 3
          (ds5.length + 1) 0 =
        some (front ++ [lastPage], none) ∧
      (∀ p ∈ front, (Prod.snd p).length = 2) ∧
      (Prod.snd lastPage).length < 2 ∧
      (ds5.length % 2 = 0 → Prod.snd lastPage = []) :=
  claim_C2_pagination_terminates_on_short_page ds5 2 3 (by decide)

/-- C3 counterexample: against a server that always answers 400 (a
status the spec calls non-retryable), get_report with max_retries = 3
still issues 4 requests, not 1: the failure is not immediate and the
number of additional attempts is not zero. -/
theorem claim_C3_counterexample_400_is_retried :
    RevenueReport.get_report (fun _ => HttpOutcome.ok 400 []) 3 =
      Except.error (RevenueReport.FetchError.exhausted 400) ∧
    RevenueReport.get_report_attempts (fun _ => HttpOutcome.ok 400 []) 3 = 4 ∧
    (4 : Nat) ≠ 1 := ⟨rfl, rfl, by decide⟩

/-- C3 amended: only the per-user-revenue variant stops immediately on a
400 — its session retries only the forcelisted statuses, so a constant
400 server gets exactly one request and the response is handed back (the
subsequent missing ad_revenue_report_url field raises at once); the
RevenueReport fetches instead retry every non-200 status uniformly, so a
constant 400 server consumes the whole budget of max_retries + 1 requests
before failing with status 400. -/
theorem claim_C3_amended_status_gating_only_in_user_variant (N : Nat)
    (body : Option (List Char)) (rs : List Row) :
    UserAdRevenueReport.sessionGet UserAdRevenueReport.STATUS_RETRIES
        (fun _ => UserHttp.ok 400 body) 0 (N + 1) =
      (UserAdRevenueReport.SessionResult.resp 400 body, 1) ∧
    UserAdRevenueReport.get_report (fun _ => UserHttp.ok 400 none) N =
      Except.error UserAdRevenueReport.UserError.keyError ∧
    RevenueReport.get_report (fun _ => HttpOutcome.ok 400 rs) N =
      Except.error (RevenueReport.FetchError.exhausted 400) ∧
    RevenueReport.get_report_attempts (fun _ => HttpOutcome.ok 400 rs) N = N + 1 := by
  have h40 : ¬(400 = 200) := by decide
  have hnf : (400 : Nat) ∉ UserAdRevenueReport.STATUS_RETRIES := by decide
  have hrl := retryLoop_const_fail 400 rs h40 N 0
  refine ⟨sessionGet_stop _ 400 body hnf 0 N, ?_, ?_, ?_⟩
  · simp [UserAdRevenueReport.get_report, sessionGet_stop _ 400 none hnf 0 N]
  · simp [RevenueReport.get_report, hrl]
  · simp [RevenueReport.get_report_attempts, hrl]

/-- C4 counterexample: a kwargs entry named api_key does override the
computed api_key entry in get_report's params dict, contradicting the
claim that identity fields cannot be overridden. -/
theorem claim_C4_counterexample_kwargs_override_api_key :
    dictGet (RevenueReport.buildParams "KEY" "2023-05-14" "2023-05-16" ["day"] 100000
        [("api_key", PValue.s "EVIL")]) "api_key" = some (PValue.s "EVIL") ∧
    PValue.s "EVIL" ≠ PValue.s "KEY" := ⟨rfl, by decide⟩

/-- C4 amended: kwargs entries are merged into the request params and
take precedence over ALL computed defaults, the identity fields (api key,
start and end dates) included, in get_report and get_report_batch alike;
in the user variant kwargs also win over every dict entry except the
application / store_id field, which is assigned after the merge. -/
theorem claim_C4_amended_kwargs_override_everything (apiKey startD endD : String)
    (columns : List String) (limit offset bsz : Nat) (date : String)
    (aggregated : Bool) (platform app sid : String)
    (kwargs : List (String × PValue)) (k : String) (v : PValue)
    (hnd : (kwargs.map Prod.fst).Nodup) (hmem : (k, v) ∈ kwargs) :
    dictGet (RevenueReport.buildParams apiKey startD endD columns limit kwargs) k =
      some v ∧
    dictGet (RevenueReport.buildBatchParams apiKey startD endD columns offset bsz
        kwargs) k = some v ∧
    (¬k = "application" → ¬k = "store_id" →
      dictGet (UserAdRevenueReport.buildParams apiKey date aggregated platform app sid
          kwargs) k = some v) := by
  refine ⟨dictGet_insertMany_mem kwargs _ k v hnd hmem,
    dictGet_insertMany_mem kwargs _ k v hnd hmem, ?_⟩
  intro hka hks
  have hbase := dictGet_insertMany_mem kwargs
    [("api_key", PValue.s apiKey), ("date", PValue.s date),
      ("aggregated", PValue.b aggregated), ("platform", PValue.s platform)]
    k v hnd hmem
  by_cases hand : platform = "android"
  · simp only [UserAdRevenueReport.buildParams, hand, if_true]
    rw [dictGet_insert_ne _ "application" k _ (fun h => hka h.symm)]
    simpa [hand] using hbase
  · by_cases hios : platform = "ios"
    · simp only [UserAdRevenueReport.buildParams, hios, if_true]
      rw [if_neg (by decide : ¬("ios" : String) = "android"),
        dictGet_insert_ne _ "store_id" k _ (fun h => hks h.symm)]
      simpa [hios] using hbase
    · simp only [UserAdRevenueReport.buildParams]
      rw [if_neg hand, if_neg hios]
      exact hbase

/-- C4 amended witness: a kwargs entry for api_key wins in all three
params builders. -/
theorem claim_C4_amended_kwargs_override_everything_witness :
    dictGet (RevenueReport.buildParams "KEY" "s" "e" ["day"] 5
        [("api_key", PValue.s "ROT")]) "api_key" = some (PValue.s "ROT") ∧
    dictGet (RevenueReport.buildBatchParams "KEY" "s" "e" ["day"] 0 7
        [("api_key", PValue.s "ROT")]) "api_key" = some (PValue.s "ROT") ∧
    dictGet (UserAdRevenueReport.buildParams "KEY" "d" true "android" "app" "sid"
        [("api_key", PValue.s "ROT")]) "api_key" = some (PValue.s "ROT") :=
  have h := claim_C4_amended_kwargs_override_everything "KEY" "s" "e" ["day"] 5 0 7
    "d" true "android" "app" "sid" [("api_key", PValue.s "ROT")] "api_key"
    (PValue.s "ROT") (by decide) (by decide)
  ⟨h.1, h.2.1, h.2.2 (by decide) (by decide)⟩

/-- C5: a 404 from the per-user-revenue endpoint passes straight through
the session (one request, no retry) and get_report returns the empty
table instead of raising, whatever the response body and retry budget;
a genuine failure (here a permanently retryable 503) surfaces as an
error instead, so the two outcomes are distinguishable. -/
theorem claim_C5_user_404_yields_empty_table (N : Nat) (body : Option (List Char)) :
    UserAdRevenueReport.get_report (fun _ => UserHttp.ok 404 body) N =
      Except.ok [] ∧
    UserAdRevenueReport.sessionGet UserAdRevenueReport.STATUS_RETRIES
        (fun _ => UserHttp.ok 404 body) 0 (N + 1) =
      (UserAdRevenueReport.SessionResult.resp 404 body, 1) ∧
    UserAdRevenueReport.get_report (fun _ => UserHttp.ok 503 body) N =
      Except.error UserAdRevenueReport.UserError.maxRetry := by
  have hnf : (404 : Nat) ∉ UserAdRevenueReport.STATUS_RETRIES := by decide
  have hin : (503 : Nat) ∈ UserAdRevenueReport.STATUS_RETRIES := by decide
  refine ⟨?_, sessionGet_stop _ 404 body hnf 0 N, ?_⟩
  · simp [UserAdRevenueReport.get_report, sessionGet_stop _ 404 body hnf 0 N]
  · simp [UserAdRevenueReport.get_report,
      sessionGet_const_retryable _ 503 body hin (N + 1) 0]

/-- C6 counterexample: with max_retries = 3, a connection error on the
first request of RevenueReport.get_report propagates after exactly one
attempt: the network failure is not retried up to the limit of four
attempts. -/
theorem claim_C6_counterexample_netErr_not_retried :
    RevenueReport.get_report (fun _ => HttpOutcome.netErr) 3 =
      Except.error RevenueReport.FetchError.network ∧
    RevenueReport.get_report_attempts (fun _ => HttpOutcome.netErr) 3 = 1 ∧
    (1 : Nat) ≠ 3 + 1 := ⟨rfl, rfl, by decide⟩

/-- C6 amended: connection/timeout errors are retried up to the attempt
limit only in the per-user-revenue variant, whose session retries them
(consuming the whole budget of N + 1 requests on a permanent failure and
recovering when some attempt within the budget succeeds); in the
RevenueReport fetches such an error propagates immediately after a single
request. -/
theorem claim_C6_amended_netErr_retried_only_in_user_variant (N : Nat)
    (body : Option (List Char)) :
    RevenueReport.get_report (fun _ => HttpOutcome.netErr) N =
      Except.error RevenueReport.FetchError.network ∧
    RevenueReport.get_report_attempts (fun _ => HttpOutcome.netErr) N = 1 ∧
    UserAdRevenueReport.sessionGet UserAdRevenueReport.STATUS_RETRIES
        (fun _ => UserHttp.netErr) 0 (N + 1) =
      (UserAdRevenueReport.SessionResult.maxRetryError, N + 1) ∧
    (∀ k, k ≤ N →
      UserAdRevenueReport.sessionGet UserAdRevenueReport.STATUS_RETRIES
          (fun j => if j < k then UserHttp.netErr else UserHttp.ok 200 body) 0 (N + 1) =
        (UserAdRevenueReport.SessionResult.resp 200 body, k + 1)) := by
  have h200 : (200 : Nat) ∉ UserAdRevenueReport.STATUS_RETRIES := by decide
  refine ⟨?_, ?_, sessionGet_const_netErr _ (N + 1) 0, ?_⟩
  · simp [RevenueReport.get_report, retryLoop_netErr 0 N]
  · simp [RevenueReport.get_report_attempts, retryLoop_netErr 0 N]
  · intro k hk
    apply sessionGet_netErr_prefix UserAdRevenueReport.STATUS_RETRIES _ 200 body h200
      k N 0 hk
    · intro j hj
      simp [hj]
    · simp

/-- C6 amended witness: two connection failures then a success, within a
budget of four attempts, recover with three requests. -/
theorem claim_C6_amended_netErr_retried_only_in_user_variant_witness :
    UserAdRevenueReport.sessionGet UserAdRevenueReport.STATUS_RETRIES
        (fun j => if j < 2 then UserHttp.netErr else UserHttp.ok 200 none) 0 (3 + 1) =
      (UserAdRevenueReport.SessionResult.resp 200 none, 2 + 1) :=
  (claim_C6_amended_netErr_retried_only_in_user_variant 3 none).2.2.2 2 (by decide)

/-- C7: for any dataset, positive page size and single-shot limit the
dataset fits in, the concatenation of the pages yielded by the paginated
fetch on a fault-free server equals, in content and order, the table the
single-shot fetch returns for the same dataset: pagination neither loses
nor duplicates rows. -/
theorem claim_C7_pagination_equals_single_shot (ds : List Row) (b mr limit : Nat)
    (hb : 1 ≤ b) (hfits : ds.length ≤ limit) :
    ∃ pages,
      RevenueReport.get_report_batch (RevenueReport.perfectServer ds) b mr
          (ds.length + 1) 0 = some (pages, none) ∧
      RevenueReport.get_report (RevenueReport.singleServer ds limit) mr =
        Except.ok ((pages.map Prod.snd).flatten) := by
  have hlen : (ds.drop 0).length < ds.length + 1 := by simp
  refine ⟨RevenueReport.chunks b (ds.length + 1) 0 (ds.drop 0), ?_, ?_⟩
  · exact batch_perfect_eq_chunks ds b mr (ds.length + 1) 0 hlen hb
  · rw [chunks_flatten b (ds.length + 1) 0 (ds.drop 0) hlen hb, List.drop_zero]
    have hrl : RevenueReport.retryLoop (RevenueReport.singleServer ds limit) 0
        (mr + 1) = (HttpOutcome.ok 200 (ds.take limit), 1) :=
      retryLoop_ok200 (ds.take limit) 0 mr
    simp [RevenueReport.get_report, hrl, List.take_of_length_le hfits]

/-- C7 witness: the equivalence instantiated on the five-row dataset,
page size 2, limit 100000. -/
theorem claim_C7_pagination_equals_single_shot_witness :
    ∃ pages,
      RevenueReport.get_report_batch (RevenueReport.perfectServer ds5) 2 3
          (ds5.length + 1) 0 = some (pages, none) ∧
      RevenueReport.get_report (RevenueReport.singleServer ds5 100000) 3 =
        Except.ok ((pages.map Prod.snd).flatten) :=
  claim_C7_pagination_equals_single_shot ds5 2 3 100000 (by decide) (by decide)

/-- C8: with page size 2 and a server dataset of 5 rows, the paginated
fetch issues successful page requests at offsets 0, 2 and 4, which return
2, 2 and 1 rows respectively; exactly those 3 pages are yielded and the
sequence then stops cleanly. -/
theorem claim_C8_concrete_five_rows_page_size_two :
    RevenueReport.get_report_batch (RevenueReport.perfectServer ds5) 2 3 6 0 =
      some ([(0, [[("i", "1")], [("i", "2")]]),
             (2, [[("i", "3")], [("i", "4")]]),
             (4, [[("i", "5")]])], none) := rfl

/-- C9: values reach the caller exactly as the service returned them,
with no numeric coercion: the inline-JSON single-shot fetch on the body
whose results array holds the one row day = 2023-05-14,
impressions = 10 returns exactly that one-row two-column table with the
string values untouched; and the indirect-CSV parse (read_csv with
dtype object) returns every cell of a well-formed delimited text as the
verbatim character string it was written as. -/
theorem claim_C9_values_preserved_verbatim :
    (RevenueReport.get_report
        (fun _ => HttpOutcome.ok 200 [[("day", "2023-05-14"), ("impressions", "10")]]) 3 =
      Except.ok [[("day", "2023-05-14"), ("impressions", "10")]]) ∧
    ∀ rows : List (List (List Char)), rows ≠ [] →
      (∀ r ∈ rows, r ≠ [] ∧ ∀ cell ∈ r, Char.ofNat 44 ∉ cell ∧ Char.ofNat 10 ∉ cell) →
      UserAdRevenueReport.read_csv_object (UserAdRevenueReport.renderCsv rows) = rows :=
  ⟨rfl, fun rows h1 h2 => read_csv_object_renderCsv rows h1 h2⟩

/-- C9 witness: a two-row table with a numeric-looking cell parses back
verbatim from its rendered CSV. -/
theorem claim_C9_values_preserved_verbatim_witness :
    UserAdRevenueReport.read_csv_object (UserAdRevenueReport.renderCsv
        [[['d', 'a', 'y'], ['i', 'm', 'p']], [['2', '0', '2', '3'], ['1', '0']]]) =
      [[['d', 'a', 'y'], ['i', 'm', 'p']], [['2', '0', '2', '3'], ['1', '0']]] :=
  claim_C9_values_preserved_verbatim.2 _ (by decide) (by decide)

/-- C10: in the date defaulting shared by get_report and
get_report_batch, if either date is missing (None) or empty then BOTH
dates are replaced by the computed defaults — a caller-supplied value for
the other date is silently discarded — and only when both are non-empty
are the supplied values used unchanged. -/
theorem claim_C10_date_defaults_coupled (defS defE : String) (sd ed : Option String) :
    (RevenueReport.pyFalsy sd = true ∨ RevenueReport.pyFalsy ed = true →
      RevenueReport.resolveDates defS defE sd ed = (defS, defE)) ∧
    (∀ s0 e0 : String, sd = some s0 → ed = some e0 → ¬s0 = "" → ¬e0 = "" →
      RevenueReport.resolveDates defS defE sd ed = (s0, e0)) := by
  constructor
  · intro h
    rcases h with h | h <;> simp [RevenueReport.resolveDates, h]
  · intro s0 e0 hs he hs0 he0
    subst hs
    subst he
    simp [RevenueReport.resolveDates, RevenueReport.pyFalsy, hs0, he0]

/-- C10 witness: a supplied start date is discarded when the end date is
missing, and both dates are kept when both are supplied non-empty. -/
theorem claim_C10_date_defaults_coupled_witness :
    RevenueReport.resolveDates "2023-05-12" "2023-05-13" (some "2023-05-01") none =
      ("2023-05-12", "2023-05-13") ∧
    RevenueReport.resolveDates "2023-05-12" "2023-05-13" (some "2023-05-01")
        (some "2023-05-02") = ("2023-05-01", "2023-05-02") :=
  ⟨(claim_C10_date_defaults_coupled "2023-05-12" "2023-05-13" (some "2023-05-01")
      none).1 (Or.inr (by decide)),
    (claim_C10_date_defaults_coupled "2023-05-12" "2023-05-13" (some "2023-05-01")
      (some "2023-05-02")).2 "2023-05-01" "2023-05-02" rfl rfl (by decide) (by decide)⟩
